import Mathlib

/-!
Verification development for the `self-serve` static file server.

The repository is a Deno/TypeScript HTTP development server.  This file gives a
shallow embedding of its request-resolution engine, change watcher, broadcast
hub, directory-listing template and API-route resolver, and proves or refutes
the specification claims about them.

The embedding conventions:
* JS strings are Lean `String` (code points as `Char`); byte contents of files
  are modelled as `String` as well.
* The filesystem is an abstract record `Fs` of the four primitives the source
  uses (`Deno.realPath`, `Deno.stat`, `Deno.readFile`, `Deno.readDir`), each
  returning `Except FsError _` where the source can throw.
* `Deno`/JS builtins used by the source (`decodeURIComponent`,
  `String.prototype.localeCompare`, the `@std/media-types` lookup) are external
  collaborators per the specification; they are modelled explicitly below with
  doc comments naming the modelling choice.
-/

/-! ## String helpers (JS built-in behaviour used by the source) -/

/-- Does `pat` match exactly at the head of `l`? -/
def csMatchesAt : List Char → List Char → Bool
  | [], _ => true
  | _ :: _, [] => false
  | p :: ps, c :: cs => (p == c) && csMatchesAt ps cs

/-- Does `sub` occur (contiguously) anywhere in `l`? -/
def csInfix (sub : List Char) : List Char → Bool
  | [] => csMatchesAt sub []
  | c :: cs => csMatchesAt sub (c :: cs) || csInfix sub cs

/-- JS `s.includes(sub)`: substring containment. -/
def sIncludes (s sub : String) : Bool :=
  csInfix sub.data s.data

/-- JS `s.startsWith(pre)`.  (Implemented on the character list so that it is
structurally recursive and kernel-reducible.) -/
def startsWithStr (s pre : String) : Bool :=
  csMatchesAt pre.data s.data

/-- JS `s.endsWith(post)`. -/
def endsWithStr (s post : String) : Bool :=
  csMatchesAt post.data.reverse s.data.reverse

/-- JS `s.includes(c)` for a single character. -/
def containsChar (s : String) (c : Char) : Bool :=
  s.data.contains c

/-- Split on a separator character, accumulator-style (JS `s.split(sep)` for a
one-character separator). -/
def splitOnCharAux (sep : Char) : List Char → List Char → List (List Char)
  | [], acc => [acc.reverse]
  | c :: cs, acc =>
    if c == sep then acc.reverse :: splitOnCharAux sep cs []
    else splitOnCharAux sep cs (c :: acc)

/-- JS `s.split('.')`. -/
def splitDot (s : String) : List String :=
  (splitOnCharAux '.' s.data []).map fun l => ⟨l⟩

/-- Lowercase a string character-wise (JS `toLowerCase` restricted to ASCII). -/
def toLowerStr (s : String) : String :=
  ⟨s.data.map Char.toLower⟩

/-- Value of an ASCII hex digit, as used by percent-decoding. -/
def hexDigitVal (c : Char) : Option Nat :=
  if 48 ≤ c.toNat ∧ c.toNat ≤ 57 then some (c.toNat - 48)
  else if 97 ≤ c.toNat ∧ c.toNat ≤ 102 then some (c.toNat - 97 + 10)
  else if 65 ≤ c.toNat ∧ c.toNat ≤ 70 then some (c.toNat - 65 + 10)
  else none

/-- Percent-decoding of a character list: `%XY` with two hex digits becomes the
character with code `0xXY`; anything else is copied through. -/
def percentDecode : List Char → List Char
  | '%' :: h1 :: h2 :: rest =>
    match hexDigitVal h1, hexDigitVal h2 with
    | some a, some b => Char.ofNat (16 * a + b) :: percentDecode rest
    | _, _ => '%' :: percentDecode (h1 :: h2 :: rest)
  | c :: rest => c :: percentDecode rest
  | [] => []

/-- Modelled from the spec: the JS builtin `decodeURIComponent`, restricted to
single-byte (ASCII) percent escapes; multi-byte UTF-8 sequences and the throw
on malformed input are not needed by any claim. -/
def decodeURIComponent (s : String) : String :=
  ⟨percentDecode s.data⟩

/-- The NUL character, used by the traversal guards. -/
def nulChar : Char := Char.ofNat 0

/-! ## Data model -/

/-- Errors thrown by the Deno filesystem primitives that the source
distinguishes (`Deno.errors.NotFound`, `Deno.errors.PermissionDenied`,
anything else). -/
inductive FsError where
  | notFound
  | permissionDenied
  | other
deriving DecidableEq, Repr

/-- Decidable equality for `Except`, so concrete runs can be checked by
evaluation. -/
def exceptDecEq {e a : Type} [DecidableEq e] [DecidableEq a] :
    DecidableEq (Except e a)
  | .error x, .error y =>
    if h : x = y then .isTrue (by rw [h]) else .isFalse (by intro hc; injection hc; contradiction)
  | .error _, .ok _ => .isFalse (by intro hc; cases hc)
  | .ok _, .error _ => .isFalse (by intro hc; cases hc)
  | .ok x, .ok y =>
    if h : x = y then .isTrue (by rw [h]) else .isFalse (by intro hc; injection hc; contradiction)

instance {e a : Type} [DecidableEq e] [DecidableEq a] : DecidableEq (Except e a) :=
  exceptDecEq

/-- The part of `Deno.FileInfo` the source reads. -/
structure FileInfo where
  isDirectory : Bool
deriving DecidableEq, Repr

/-- The part of a `Deno.readDir` entry the source reads. -/
structure DirEntry where
  name : String
  isDirectory : Bool
deriving DecidableEq, Repr

/-- Abstract filesystem: the four Deno primitives used by the server. -/
structure Fs where
  realPath : String → Except FsError String
  stat : String → Except FsError FileInfo
  readFile : String → Except FsError String
  readDir : String → List DirEntry

/-- An HTTP response as the source constructs it: status, the explicitly set
headers (in order), and the body.  Defaults added by the Deno runtime are not
modelled. -/
structure Response where
  status : Nat
  headers : List (String × String)
  body : String
deriving DecidableEq, Repr

/-! ## External MIME lookup -/

/-- Modelled from the repository's own tests (`src/helpers/fs.test.ts`), which
pin the values of the external `@std/media-types` `contentType` lookup used by
`serveFile`: note the uppercase `UTF-8` in the charset suffix. -/
def contentTypeStd (ext : String) : Option String :=
  if ext = "html" then some "text/html; charset=UTF-8"
  else if ext = "css" then some "text/css; charset=UTF-8"
  else if ext = "js" then some "text/javascript; charset=UTF-8"
  else if ext = "json" then some "application/json; charset=UTF-8"
  else if ext = "txt" then some "text/plain; charset=UTF-8"
  else if ext = "svg" then some "image/svg+xml"
  else if ext = "png" then some "image/png"
  else if ext = "jpg" then some "image/jpeg"
  else if ext = "jpeg" then some "image/jpeg"
  else none

/-- The hand-rolled extension table of the `serveStaticFile` variant
(`self-serve.ts`, `getMimeType`), entries verbatim from the source. -/
def mimeTypesV2 (ext : String) : Option String :=
  if ext = "html" then some "text/html; charset=utf-8"
  else if ext = "css" then some "text/css; charset=utf-8"
  else if ext = "js" then some "application/javascript; charset=utf-8"
  else if ext = "mjs" then some "application/javascript; charset=utf-8"
  else if ext = "json" then some "application/json; charset=utf-8"
  else if ext = "xml" then some "application/xml; charset=utf-8"
  else if ext = "txt" then some "text/plain; charset=utf-8"
  else if ext = "md" then some "text/markdown; charset=utf-8"
  else if ext = "png" then some "image/png"
  else if ext = "jpg" then some "image/jpeg"
  else if ext = "jpeg" then some "image/jpeg"
  else if ext = "gif" then some "image/gif"
  else if ext = "svg" then some "image/svg+xml"
  else if ext = "webp" then some "image/webp"
  else if ext = "ico" then some "image/x-icon"
  else if ext = "woff" then some "font/woff"
  else if ext = "woff2" then some "font/woff2"
  else if ext = "ttf" then some "font/ttf"
  else if ext = "otf" then some "font/otf"
  else if ext = "eot" then some "application/vnd.ms-fontobject"
  else if ext = "pdf" then some "application/pdf"
  else if ext = "zip" then some "application/zip"
  else if ext = "mp4" then some "video/mp4"
  else if ext = "webm" then some "video/webm"
  else if ext = "mp3" then some "audio/mpeg"
  else if ext = "wav" then some "audio/wav"
  else none

/-- `getMimeType` of the `serveStaticFile` variant:
`filePath.split('.').pop()?.toLowerCase()` looked up in the table, defaulting
to `application/octet-stream`. -/
def getMimeTypeV2 (filePath : String) : String :=
  (mimeTypesV2 (toLowerStr ((splitDot filePath).getLastD ""))).getD
    "application/octet-stream"

/-! ## Hot-reload script generation and HTML injection -/

/-- `generateHotReloadScript`: the injected client tag.  The literal JS client
text (a template the spec treats as presentation) is abridged to the parts the
claims can observe: a single `<script>` element mentioning the websocket
endpoint.  No claim depends on the inner JS text. -/
def generateHotReloadScript (host : String) (port : Nat) : String :=
  "<script>setupHotReload(ws://" ++ host ++ ":" ++ toString port ++
    "/__hot_reload__)</script>"

/-- Case-insensitive character equality (ASCII), as the `i` regex flag. -/
def ciCharEq (a b : Char) : Bool :=
  a.toLower == b.toLower

/-- Does `pat` match case-insensitively at the head of `l`? -/
def ciMatchesAt : List Char → List Char → Bool
  | [], _ => true
  | _ :: _, [] => false
  | p :: ps, c :: cs => ciCharEq p c && ciMatchesAt ps cs

/-- JS `s.replace(/pat/i, repl)` for a literal pattern: replace the first
case-insensitive occurrence of `pat` (if any) by `repl`. -/
def replaceFirstCI (pat repl : List Char) : List Char → List Char
  | [] => []
  | c :: cs =>
    if ciMatchesAt pat (c :: cs) then repl ++ (c :: cs).drop pat.length
    else c :: replaceFirstCI pat repl cs

/-- String version of `replaceFirstCI`. -/
def replaceFirstCIStr (pat repl s : String) : String :=
  ⟨replaceFirstCI pat.data repl.data s.data⟩

/-- The script-injection placement logic shared by `serveFile`
(`self-serve.ts`) and `injectHotReloadScript`
(`src/templates/directoryList.ts`): before the first case-insensitive
`</body>` when a (case-sensitive) `</body>` occurs, else before `</html>`
when one occurs, else appended. -/
def injectIntoHtml (script html : String) : String :=
  if sIncludes html "</body>" then
    replaceFirstCIStr "</body>" (script ++ "\n</body>") html
  else if sIncludes html "</html>" then
    replaceFirstCIStr "</html>" (script ++ "\n</html>") html
  else html ++ script

/-- `injectHotReloadScript` from `src/templates/directoryList.ts`. -/
def injectHotReloadScript (content host : String) (port : Nat) : String :=
  injectIntoHtml (generateHotReloadScript host port) content

/-! ## Templates -/

/-- `generateNotFoundPage`: the 404 template.  Markup abridged to its
data-bearing skeleton (the spec treats the literal markup as an external
template renderer). -/
def generateNotFoundPage (path : String) : String :=
  "<h1>404</h1><p>Page Not Found: <code>" ++ path ++ "</code></p>"

/-- Strict lexicographic order on lists of naturals, executable. -/
def lexLtB : List Nat → List Nat → Bool
  | [], [] => false
  | [], _ :: _ => true
  | _ :: _, [] => false
  | a :: as, b :: bs =>
    if a < b then true else if b < a then false else lexLtB as bs

/-- Primary collation key: character-wise lowercase code points. -/
def keyLower (s : String) : List Nat :=
  s.data.map fun c => c.toLower.toNat

/-- Tiebreak collation key: 0 for lowercase/other, 1 for uppercase, so that in
a primary tie lowercase sorts before uppercase. -/
def keyCase (s : String) : List Nat :=
  s.data.map fun c => cond c.isUpper 1 0

/-- Modelled from the spec: `String.prototype.localeCompare` is a JS builtin
(ICU collation).  Modelled for ASCII as root-locale collation: strings are
compared case-insensitively first, with a lowercase-before-uppercase tiebreak.
In particular this is NOT ordinal code-point order: `a` sorts before `B`. -/
def localeCompare (a b : String) : Int :=
  if lexLtB (keyLower a) (keyLower b) then -1
  else if lexLtB (keyLower b) (keyLower a) then 1
  else if lexLtB (keyCase a) (keyCase b) then -1
  else if lexLtB (keyCase b) (keyCase a) then 1
  else 0

/-- The comparator passed to `entries.sort` in `generateDirectoryListingPage`:
directories first, then `localeCompare` on names. -/
def entryCompare (a b : DirEntry) : Int :=
  if a.isDirectory && !b.isDirectory then -1
  else if !a.isDirectory && b.isDirectory then 1
  else localeCompare a.name b.name

/-- The non-strict order induced by the comparator (`entryCompare a b ≤ 0`). -/
def entryLe (a b : DirEntry) : Prop :=
  entryCompare a b ≤ 0

instance : DecidableRel entryLe :=
  fun a b => inferInstanceAs (Decidable (entryCompare a b ≤ 0))

/-- `entries.sort(comparator)`: JS `Array.prototype.sort` with a consistent
comparator produces a sorted permutation; modelled as insertion sort by the
comparator order. -/
def sortEntries (entries : List DirEntry) : List DirEntry :=
  List.insertionSort entryLe entries

/-- The parent-link fragment of the listing template:
present exactly when `pathName !== '/'` in the source. -/
def parentLinkHtml (pathName : String) : String :=
  if pathName ≠ "/" then "<li><a href=\"..\">../</a></li>" else ""

/-- One `<li>` row of the listing, as built in the source loop. -/
def entryRowHtml (pathName : String) (e : DirEntry) : String :=
  let slash := if e.isDirectory then "/" else ""
  let href := (if endsWithStr pathName "/" then "" else pathName ++ "/") ++ e.name ++ slash
  "<li><a href=\"" ++ href ++ "\">" ++ e.name ++ slash ++ "</a></li>"

/-- The concatenated sorted rows (`fileList` in the source). -/
def fileListHtml (pathName : String) (entries : List DirEntry) : String :=
  (sortEntries entries).foldl (fun acc e => acc ++ entryRowHtml pathName e) ""

/-- `generateDirectoryListingPage`: sorted listing with optional parent link.
The static markup (style block, meta tags) is abridged; the spec treats the
literal markup as an external template renderer. -/
def generateDirectoryListingPage (pathName : String) (entries : List DirEntry) : String :=
  "<html><head><title>Index of " ++ pathName ++ "</title></head><body><h1>Index of "
    ++ pathName ++ "</h1><ul>" ++ parentLinkHtml pathName
    ++ fileListHtml pathName entries ++ "</ul></body></html>"

/-! ## Responses and the static responder (`serveStatic` / `serveFile`) -/

/-- `new Response('Forbidden', 403)`. -/
def forbiddenResponse : Response :=
  { status := 403, headers := [], body := "Forbidden" }

/-- `new Response('Internal Server Error', 500)`. -/
def internalErrorResponse : Response :=
  { status := 500, headers := [], body := "Internal Server Error" }

/-- The rendered 404 response of `serveStatic`. -/
def notFoundResponse (decodedPathName : String) : Response :=
  { status := 404
    headers := [("Content-Type", "text/html; charset=utf-8")]
    body := generateNotFoundPage decodedPathName }

/-- The catch-clause of `serveStatic`: NotFound renders the 404 page,
PermissionDenied is 403, anything else 500. -/
def catchServeError (e : FsError) (decodedPathName : String) : Response :=
  match e with
  | .notFound => notFoundResponse decodedPathName
  | .permissionDenied => forbiddenResponse
  | .other => internalErrorResponse

/-- `serveFile` (`self-serve.ts`): read the bytes, look up the MIME type from
the final dot-component, and either take the HTML-injection branch or serve
the raw content with optional cache headers.  Thrown filesystem errors
propagate to the caller's catch. -/
def serveFile (fs : Fs) (host : String) (port : Nat) (filePath : String) :
    Except FsError Response :=
  match fs.readFile filePath with
  | .error e => .error e
  | .ok content =>
    let mimeType := (contentTypeStd ((splitDot filePath).getLastD "")).getD
      "application/octet-stream"
    if mimeType = "text/html; charset=utf-8" then
      let modifiedHtml := injectIntoHtml (generateHotReloadScript host port) content
      .ok { status := 200
            headers := [("Content-Type", mimeType),
                        ("Cache-Control", "no-cache, no-store, must-revalidate"),
                        ("Pragma", "no-cache"),
                        ("Expires", "0")]
            body := modifiedHtml }
    else
      .ok { status := 200
            headers := ("Content-Type", mimeType) ::
              (if startsWithStr mimeType "image/" || mimeType = "application/javascript"
               then [("Cache-Control", "public, max-age=0, must-revalidate")]
               else [])
            body := content }

/-- `serveStatic` (`self-serve.ts`): decode the request path, concatenate with
the served directory, canonicalize both and apply the prefix/NUL guard, then
serve a file, the implicit directory `index.html`, or a directory listing. -/
def serveStatic (fs : Fs) (dir host : String) (port : Nat) (pathName : String) :
    Response :=
  let decodedPathName := decodeURIComponent pathName
  let resolvedPath := dir ++ decodedPathName
  match fs.realPath dir with
  | .error .notFound => notFoundResponse decodedPathName
  | .error _ => internalErrorResponse
  | .ok realBasePath =>
    match fs.realPath resolvedPath with
    | .error .notFound => notFoundResponse decodedPathName
    | .error _ => internalErrorResponse
    | .ok realResolvedPath =>
      if !startsWithStr realResolvedPath realBasePath || containsChar resolvedPath nulChar then
        forbiddenResponse
      else
        match fs.stat resolvedPath with
        | .error e => catchServeError e decodedPathName
        | .ok fileInfo =>
          if fileInfo.isDirectory then
            let indexPath := resolvedPath ++
              (if endsWithStr resolvedPath "/" then "" else "/") ++ "index.html"
            match fs.stat indexPath with
            | .ok _ =>
              match serveFile fs host port indexPath with
              | .ok resp => resp
              | .error e => catchServeError e decodedPathName
            | .error .notFound =>
              { status := 200
                headers := [("Content-Type", "text/html; charset=utf-8")]
                body := generateDirectoryListingPage decodedPathName
                  (fs.readDir resolvedPath) }
            | .error e => catchServeError e decodedPathName
          else
            match serveFile fs host port resolvedPath with
            | .ok resp => resp
            | .error e => catchServeError e decodedPathName

/-- `serveStaticFile` (the recursive variant in `self-serve.ts`): literal
`..`/NUL rejection first, implicit `index.html` for `/`-terminated paths, a
best-effort realPath prefix guard whose canonicalization failures are ignored,
then stat/read with the same error taxonomy.  The directory branch recurses on
`filePath + '/index.html'` as a request path; the `Nat` argument is recursion
fuel (`0` is never reached at any finite recursion depth arising from the
claims). -/
def serveStaticFile (fs : Fs) (dir host : String) (port : Nat) :
    Nat → String → Response
  | 0, _ => internalErrorResponse
  | fuel + 1, pathName =>
    if sIncludes pathName ".." || containsChar pathName nulChar then
      forbiddenResponse
    else
      let p1 := if pathName = "" then pathName ++ "/" else pathName
      let p2 := if endsWithStr p1 "/" then p1 ++ "index.html" else p1
      let filePath := dir ++ p2
      let guarded : Option Response :=
        match fs.realPath filePath, fs.realPath dir with
        | .ok realPath, .ok realDir =>
          if !startsWithStr realPath realDir then some forbiddenResponse else none
        | _, _ => none
      match guarded with
      | some r => r
      | none =>
        match fs.stat filePath with
        | .error .notFound => { status := 404, headers := [], body := "Not Found" }
        | .error .permissionDenied => forbiddenResponse
        | .error .other => internalErrorResponse
        | .ok info =>
          if info.isDirectory then
            let indexPath := filePath ++ "/index.html"
            match fs.stat indexPath with
            | .ok _ => serveStaticFile fs dir host port fuel indexPath
            | .error _ =>
              { status := 403, headers := [], body := "Directory listing not supported" }
          else
            match fs.readFile filePath with
            | .error .notFound => { status := 404, headers := [], body := "Not Found" }
            | .error .permissionDenied => forbiddenResponse
            | .error .other => internalErrorResponse
            | .ok content =>
              let mimeType := getMimeTypeV2 filePath
              if mimeType = "text/html" then
                let html := toLowerStr content
                let modifiedHtml := injectIntoHtml (generateHotReloadScript host port) html
                { status := 200
                  headers := [("Content-Type", mimeType),
                              ("Cache-Control", "no-cache, no-store, must-revalidate"),
                              ("Pragma", "no-cache"),
                              ("Expires", "0")]
                  body := modifiedHtml }
              else
                { status := 200
                  headers := ("Content-Type", mimeType) ::
                    (if startsWithStr mimeType "image/" || mimeType = "application/javascript"
                     then [("Cache-Control", "public, max-age=0, must-revalidate")]
                     else [])
                  body := content }

/-! ## Change watcher (`startFileWatcher` / `onFilesChanged`) -/

/-- A raw `Deno.FsEvent` as the watcher loop reads it. -/
structure FsEvent where
  kind : String
  paths : List String
deriving DecidableEq, Repr

/-- The wire payload broadcast to sessions. -/
structure ReloadMessage where
  type : String
  files : List String
deriving DecidableEq, Repr

/-- The watched extension set, verbatim from the filter in the source. -/
def watchedExts : List String :=
  ["html", "css", "js", "json", "svg", "png", "jpg", "jpeg"]

/-- The per-event filter: keep paths whose `split('.').pop()?.toLowerCase()`
is truthy and in the watched extension list. -/
def webFilesOf (ev : FsEvent) : List String :=
  ev.paths.filter fun p =>
    let ext := toLowerStr ((splitDot p).getLastD "")
    ext ≠ "" && watchedExts.contains ext

/-- `event.kind === 'modify' || event.kind === 'create'`. -/
def qualifiesKind (kind : String) : Bool :=
  kind = "modify" || kind = "create"

/-- `onFilesChanged`: classify the batch and make exactly one broadcast call.
The result is the list of broadcast payloads the call performs. -/
def onFilesChanged (files : List String) : List ReloadMessage :=
  if files.all (fun file => endsWithStr file ".css") then
    [{ type := "css-change", files := files }]
  else
    [{ type := "full-reload", files := files }]

/-- Watcher debounce state: `some (expiry, webFiles)` when a timer armed by an
event is pending, carrying the `webFiles` captured by that timer's callback. -/
abbrev DebounceState := Option (Nat × List String)

/-- The passage of time up to instant `t` for a pending debounce timer: the
timer fires (emitting the `onFilesChanged` payloads for its captured batch)
exactly when its expiry has been reached. -/
def timerFire (s : DebounceState) (t : Nat) : DebounceState × List ReloadMessage :=
  match s with
  | some (e, fsl) => if e ≤ t then (none, onFilesChanged fsl) else (s, [])
  | none => (none, [])

/-- One iteration of the watcher loop at an event arriving at time `t`: first
fire the pending timer if its expiry has passed, then, for a qualifying event
with non-empty filtered files, (re)arm the timer for `t + 100` capturing this
event's files (the previous timer, if still pending, is cleared). -/
def watcherStep (s : DebounceState) (t : Nat) (ev : FsEvent) :
    DebounceState × List ReloadMessage :=
  let fired := timerFire s t
  if qualifiesKind ev.kind then
    let wf := webFilesOf ev
    if wf.isEmpty then fired
    else (some (t + 100, wf), fired.2)
  else fired

/-- Run the watcher loop over timestamped events (times non-decreasing in
intended use), then let time advance to `endTime`, firing a still-pending
timer whose expiry has been reached.  Returns the broadcast payloads in
order. -/
def watcherRun (s : DebounceState) (evs : List (Nat × FsEvent)) (endTime : Nat) :
    List ReloadMessage :=
  match evs with
  | [] => (timerFire s endTime).2
  | (t, ev) :: rest =>
    let (s1, out) := watcherStep s t ev
    out ++ watcherRun s1 rest endTime

/-! ## Reload hub (`broadcastToClients`) -/

/-- A WebSocket session as `broadcastToClients` observes it: whether
`readyState === OPEN`, and whether `send` would throw on it during this
broadcast. -/
structure Client where
  id : Nat
  isOpen : Bool
  sendFails : Bool
deriving DecidableEq, Repr

/-- `broadcastToClients`: iterate over the session set; on an open session
attempt the send and delete the session if the send throws; delete non-open
sessions outright.  Returns the surviving session set and the ids of the
sessions on which a send was attempted (in iteration order). -/
def broadcastToClients (clients : List Client) (message : String) :
    List Client × List Nat :=
  match clients with
  | [] => ([], [])
  | c :: rest =>
    let (rem, att) := broadcastToClients rest message
    if c.isOpen then
      if c.sendFails then (rem, c.id :: att)
      else (c :: rem, c.id :: att)
    else (rem, att)

/-! ## API route resolution -/

namespace HelpersFs

/-- `resolveApiFilePath` from `src/helpers/fs.ts`: `expandGlob` with the
literal pattern `apiPath + '.ts'` under the API root first, falling back to
`apiPath + '.js'`.  `files` is the list of paths (relative to the API root)
that exist; `expandGlob` of a wildcard-free pattern yields the path exactly
when it exists. -/
def resolveApiFilePath (files : List String) (apiRootPath apiPath : String) :
    Option String :=
  if files.contains (apiPath ++ ".ts") then
    some (apiRootPath ++ "/" ++ apiPath ++ ".ts")
  else if files.contains (apiPath ++ ".js") then
    some (apiRootPath ++ "/" ++ apiPath ++ ".js")
  else none

end HelpersFs

namespace HelpersIndex

/-- `entry.name.split('.')[0]`. -/
def baseOf (name : String) : String :=
  (splitDot name).headD ""

/-- `extname(entry.name)` of `@std/path` for plain file names: the final
dot-suffix including the dot, empty when the name has no dot.  (The
leading-dot hidden-file special case is irrelevant to the claims.) -/
def extnameOf (name : String) : String :=
  let parts := splitDot name
  if parts.length ≤ 1 then "" else "." ++ parts.getLastD ""

/-- The `for await (entry of Deno.readDir(...))` loop of `resolveApiFilePath`
in `src/helpers/index.ts`, with accumulator `foundFilePath`: a matching `.ts`
entry returns immediately (break), a matching `.js` entry is recorded only if
nothing was recorded yet. -/
def resolveLoop (apiDirPath apiPath : String) :
    List String → Option String → Option String
  | [], acc => acc
  | name :: rest, acc =>
    if baseOf name = apiPath then
      if extnameOf name = ".ts" then some (apiDirPath ++ "/" ++ name)
      else if extnameOf name = ".js" && acc.isNone then
        resolveLoop apiDirPath apiPath rest (some (apiDirPath ++ "/" ++ name))
      else resolveLoop apiDirPath apiPath rest acc
    else resolveLoop apiDirPath apiPath rest acc

/-- `resolveApiFilePath` from `src/helpers/index.ts`: scan the API directory
entries (names in directory order), preferring a `.ts` match over a `.js`
match for the same logical route. -/
def resolveApiFilePath (entryNames : List String) (apiDirPath apiPath : String) :
    Option String :=
  resolveLoop apiDirPath apiPath entryNames none

end HelpersIndex

/-! ## Theorems -/

/-- Auxiliary: every payload of one `onFilesChanged` call carries exactly the
batch it was called with. -/
theorem onFilesChanged_files (files : List String) :
    (onFilesChanged files).map ReloadMessage.files = [files] := by
  unfold onFilesChanged
  split <;> simp

/-- Auxiliary: one `onFilesChanged` call makes exactly one broadcast. -/
theorem onFilesChanged_length (files : List String) :
    (onFilesChanged files).length = 1 := by
  unfold onFilesChanged
  split <;> simp

/-- C4: `onFilesChanged` maps every batch to exactly one message, whose files
are the batch; the message kind is `css-change` exactly when every file of the
batch ends in `.css`, and `full-reload` exactly when some file does not. -/
theorem onFilesChanged_classification (files : List String) :
    (onFilesChanged files).length = 1 ∧
    (onFilesChanged files).map ReloadMessage.files = [files] ∧
    ((onFilesChanged files).map ReloadMessage.type = ["css-change"] ↔
      files.all (fun file => endsWithStr file ".css") = true) ∧
    ((onFilesChanged files).map ReloadMessage.type = ["full-reload"] ↔
      files.any (fun file => !endsWithStr file ".css") = true) := by
  refine ⟨onFilesChanged_length files, onFilesChanged_files files, ?_, ?_⟩ <;>
    unfold onFilesChanged <;>
    by_cases h : files.all (fun file => endsWithStr file ".css") = true
  · rw [if_pos h]
    simp [h]
  · rw [if_neg h]
    simp only [List.all_eq_true] at h
    push_neg at h
    obtain ⟨x, hx, hpx⟩ := h
    simp only [List.map_cons, List.map_nil, List.all_eq_true]
    constructor
    · intro hc
      exact absurd hc (by decide)
    · intro hall
      exact absurd (hall x hx) hpx
  · rw [if_pos h]
    simp only [List.all_eq_true] at h
    simp only [List.map_cons, List.map_nil, List.any_eq_true]
    constructor
    · intro hc
      exact absurd hc (by decide)
    · rintro ⟨x, hx, hpx⟩
      rw [h x hx] at hpx
      exact absurd hpx (by decide)
  · rw [if_neg h]
    simp only [List.all_eq_true] at h
    push_neg at h
    obtain ⟨x, hx, hpx⟩ := h
    simp only [List.map_cons, List.map_nil, List.any_eq_true, true_iff]
    exact ⟨x, hx, by simp [Bool.not_eq_true] at hpx ⊢; exact hpx⟩

/-- C5: `broadcastToClients` attempts a send on every currently-open session
(in iteration order) regardless of failures elsewhere, and the surviving
session set is exactly the open sessions whose send succeeded; in particular a
failed session is removed and no session whose send failed remains. -/
theorem broadcastToClients_resilience (clients : List Client) (message : String) :
    (broadcastToClients clients message).2 =
      (clients.filter Client.isOpen).map Client.id ∧
    (broadcastToClients clients message).1 =
      clients.filter (fun c => c.isOpen && !c.sendFails) := by
  induction clients with
  | nil => simp [broadcastToClients]
  | cons c rest ih =>
    cases ho : c.isOpen <;> cases hf : c.sendFails <;>
      simp [broadcastToClients, List.filter_cons, ho, hf, ih.1, ih.2]


/-- Auxiliary: every message of one `onFilesChanged` call on a non-empty batch
has a non-empty files list. -/
theorem onFilesChanged_all_nonempty (files : List String) (h : files.isEmpty = false) :
    (onFilesChanged files).all (fun m => !m.files.isEmpty) = true := by
  unfold onFilesChanged
  split <;> simp_all

/-- The debounce-accumulator invariant: a pending timer always captures a
non-empty filtered batch. -/
def PendingNonempty (s : DebounceState) : Prop :=
  ∀ e fsl, s = some (e, fsl) → fsl.isEmpty = false

/-- Auxiliary: firing the timer only emits payloads of non-empty batches. -/
theorem timerFire_out_nonempty (s : DebounceState) (t : Nat) (hs : PendingNonempty s) :
    ((timerFire s t).2.all fun m => !m.files.isEmpty) = true := by
  match s with
  | none => simp [timerFire]
  | some (e, fsl) =>
    simp only [timerFire]
    split
    · exact onFilesChanged_all_nonempty fsl (hs e fsl rfl)
    · simp

/-- Auxiliary: firing the timer preserves the accumulator invariant. -/
theorem timerFire_state (s : DebounceState) (t : Nat) (hs : PendingNonempty s) :
    PendingNonempty (timerFire s t).1 := by
  intro e1 fsl1 h
  match s with
  | none => simp [timerFire] at h
  | some (e, fsl) =>
    simp only [timerFire] at h
    split at h
    · cases h
    · exact hs e1 fsl1 h

/-- Auxiliary: one watcher-loop iteration only emits payloads of non-empty
batches. -/
theorem watcherStep_out_nonempty (s : DebounceState) (t : Nat) (ev : FsEvent)
    (hs : PendingNonempty s) :
    ((watcherStep s t ev).2.all fun m => !m.files.isEmpty) = true := by
  unfold watcherStep
  by_cases hq : qualifiesKind ev.kind = true
  · rw [if_pos hq]
    by_cases hw : (webFilesOf ev).isEmpty = true
    · rw [if_pos hw]
      exact timerFire_out_nonempty s t hs
    · rw [if_neg hw]
      exact timerFire_out_nonempty s t hs
  · rw [if_neg hq]
    exact timerFire_out_nonempty s t hs

/-- Auxiliary: one watcher-loop iteration preserves the accumulator
invariant (the timer is only re-armed with a non-empty filtered batch). -/
theorem watcherStep_state (s : DebounceState) (t : Nat) (ev : FsEvent)
    (hs : PendingNonempty s) :
    PendingNonempty (watcherStep s t ev).1 := by
  intro e1 fsl1 h
  unfold watcherStep at h
  by_cases hq : qualifiesKind ev.kind = true
  · rw [if_pos hq] at h
    by_cases hw : (webFilesOf ev).isEmpty = true
    · rw [if_pos hw] at h
      exact timerFire_state s t hs e1 fsl1 h
    · rw [if_neg hw] at h
      simp only at h
      injection h with h2
      injection h2 with _ h3
      rw [← h3]
      exact Bool.not_eq_true _ ▸ (Bool.eq_false_iff.mpr (fun hc => hw hc))
  · rw [if_neg hq] at h
    exact timerFire_state s t hs e1 fsl1 h

/-- Auxiliary: the watcher run emits only non-empty files lists, from any
state satisfying the accumulator invariant. -/
theorem watcherRun_all_nonempty (evs : List (Nat × FsEvent)) :
    ∀ s : DebounceState, PendingNonempty s →
      ∀ endTime, (watcherRun s evs endTime).all (fun m => !m.files.isEmpty) = true := by
  induction evs with
  | nil =>
    intro s hs endTime
    simpa [watcherRun] using timerFire_out_nonempty s endTime hs
  | cons te rest ih =>
    intro s hs endTime
    obtain ⟨t, ev⟩ := te
    simp only [watcherRun, List.all_append]
    rw [watcherStep_out_nonempty s t ev hs, Bool.true_and]
    exact ih _ (watcherStep_state s t ev hs) endTime

/-- C10: starting idle, every `ReloadMessage` the watcher broadcasts has a
non-empty files list: the debounce timer is only armed by an event whose
filtered batch is non-empty, and a fired timer emits exactly that captured
batch. -/
theorem watcher_messages_nonempty (evs : List (Nat × FsEvent)) (endTime : Nat) :
    (watcherRun none evs endTime).all (fun m => !m.files.isEmpty) = true :=
  watcherRun_all_nonempty evs none (fun _ _ h => by cases h) endTime

/-- Events all arriving inside the running debounce window: each event arrives
strictly before the pending expiry `bound`, is of a qualifying kind, has a
non-empty filtered batch, and re-arms the window at its own time plus 100. -/
def WithinWindow : Nat → List (Nat × FsEvent) → Prop
  | _, [] => True
  | bound, (t, ev) :: rest =>
    t < bound ∧ qualifiesKind ev.kind = true ∧ (webFilesOf ev).isEmpty = false ∧
      WithinWindow (t + 100) rest

/-- `WithinWindow` is decidable, so concrete bursts can be checked by
evaluation. -/
def decWithinWindow : (bound : Nat) → (evs : List (Nat × FsEvent)) →
    Decidable (WithinWindow bound evs)
  | _, [] => .isTrue trivial
  | bound, (t, ev) :: rest =>
    have _h := decWithinWindow (t + 100) rest
    inferInstanceAs (Decidable (t < bound ∧ qualifiesKind ev.kind = true ∧
      (webFilesOf ev).isEmpty = false ∧ WithinWindow (t + 100) rest))

instance (bound : Nat) (evs : List (Nat × FsEvent)) :
    Decidable (WithinWindow bound evs) :=
  decWithinWindow bound evs

/-- Auxiliary: with a timer armed at `t + 100` for batch `wf`, a chain of
in-window qualifying events keeps replacing the pending batch, and when time
reaches past the last expiry exactly the last captured batch is emitted. -/
theorem watcherRun_armed (rest : List (Nat × FsEvent)) :
    ∀ (t : Nat) (wf : List String) (endTime : Nat),
      WithinWindow (t + 100) rest →
      (rest.foldl (fun _ te => te.1) t) + 100 ≤ endTime →
      watcherRun (some (t + 100, wf)) rest endTime =
        onFilesChanged (rest.foldl (fun _ te => webFilesOf te.2) wf) := by
  induction rest with
  | nil =>
    intro t wf endTime _ hend
    simp only [watcherRun, timerFire, List.foldl_nil] at *
    rw [if_pos hend]
  | cons te rest2 ih =>
    intro t wf endTime hw hend
    obtain ⟨t1, ev1⟩ := te
    obtain ⟨hlt, hq, hne, hw2⟩ := hw
    simp only [watcherRun, watcherStep, timerFire]
    rw [if_neg (by omega : ¬ t + 100 ≤ t1), if_pos hq, if_neg (by simp [hne])]
    simp only [List.nil_append]
    exact ih t1 (webFilesOf ev1) endTime hw2 hend

/-- C2 (amended): with the watcher idle, a first qualifying event at `t0`
followed by qualifying events each arriving inside the running 100ms window
produces, once time passes the last expiry, exactly one `ReloadMessage` -
and its files list is the filtered batch of the LAST event of the burst
(`foldl` keeps only the most recent batch), not the union of all of them. -/
theorem debounce_collapses_to_last_event (t0 : Nat) (ev0 : FsEvent)
    (rest : List (Nat × FsEvent)) (endTime : Nat)
    (h0 : qualifiesKind ev0.kind = true)
    (h1 : (webFilesOf ev0).isEmpty = false)
    (hw : WithinWindow (t0 + 100) rest)
    (hend : (rest.foldl (fun _ te => te.1) t0) + 100 ≤ endTime) :
    watcherRun none ((t0, ev0) :: rest) endTime =
      onFilesChanged (rest.foldl (fun _ te => webFilesOf te.2) (webFilesOf ev0)) ∧
    (watcherRun none ((t0, ev0) :: rest) endTime).length = 1 := by
  have hrun : watcherRun none ((t0, ev0) :: rest) endTime =
      onFilesChanged (rest.foldl (fun _ te => webFilesOf te.2) (webFilesOf ev0)) := by
    simp only [watcherRun, watcherStep, timerFire]
    rw [if_pos h0, if_neg (by simp [h1])]
    simp only [List.nil_append]
    exact watcherRun_armed rest t0 (webFilesOf ev0) endTime hw hend
  exact ⟨hrun, by rw [hrun]; exact onFilesChanged_length _⟩

/-- C2 witness: two CSS modifications 40ms apart inside one window; the
amended theorem applies and yields exactly one `css-change` message carrying
the second batch. -/
theorem debounce_collapses_to_last_event_witness :
    qualifiesKind (FsEvent.mk "modify" ["/w/a.css"]).kind = true ∧
    (webFilesOf (FsEvent.mk "modify" ["/w/a.css"])).isEmpty = false ∧
    WithinWindow (0 + 100) [(40, FsEvent.mk "modify" ["/w/b.css"])] ∧
    (([(40, FsEvent.mk "modify" ["/w/b.css"])].foldl (fun _ te => te.1) 0) + 100 ≤ 200) ∧
    watcherRun none
        [(0, FsEvent.mk "modify" ["/w/a.css"]), (40, FsEvent.mk "modify" ["/w/b.css"])] 200 =
      onFilesChanged
        ([(40, FsEvent.mk "modify" ["/w/b.css"])].foldl (fun _ te => webFilesOf te.2)
          (webFilesOf (FsEvent.mk "modify" ["/w/a.css"]))) :=
  ⟨by decide, by decide, by decide, by decide,
    (debounce_collapses_to_last_event 0 (FsEvent.mk "modify" ["/w/a.css"])
      [(40, FsEvent.mk "modify" ["/w/b.css"])] 200
      (by decide) (by decide) (by decide) (by decide)).1⟩

/-- C2 counterexample: the same two-event burst (both inside the window)
produces one message whose files list is only the second batch; the first
file is absent from every emitted message, refuting the claimed union. -/
theorem debounce_union_refuted :
    watcherRun none
        [(0, FsEvent.mk "modify" ["/w/a.css"]), (40, FsEvent.mk "modify" ["/w/b.css"])] 200 =
      [{ type := "css-change", files := ["/w/b.css"] }] ∧
    (watcherRun none
        [(0, FsEvent.mk "modify" ["/w/a.css"]), (40, FsEvent.mk "modify" ["/w/b.css"])] 200).all
      (fun m => !m.files.contains "/w/a.css") = true := by
  decide

/-- Auxiliary: the directory-scan loop returns the `.ts` route file whenever
it is present and the only entries base-matching the route are its `.ts` and
`.js` variants, regardless of scan order and of any `.js` already or not yet
recorded. -/
theorem resolveLoop_finds_ts (apiDirPath apiPath : String) :
    ∀ (names : List String) (acc : Option String),
      (apiPath ++ ".ts") ∈ names →
      (∀ name ∈ names, HelpersIndex.baseOf name = apiPath →
        name = apiPath ++ ".ts" ∨ name = apiPath ++ ".js") →
      HelpersIndex.baseOf (apiPath ++ ".ts") = apiPath →
      HelpersIndex.extnameOf (apiPath ++ ".ts") = ".ts" →
      HelpersIndex.extnameOf (apiPath ++ ".js") = ".js" →
      HelpersIndex.resolveLoop apiDirPath apiPath names acc =
        some (apiDirPath ++ "/" ++ (apiPath ++ ".ts")) := by
  intro names
  induction names with
  | nil => intro acc hmem; cases hmem
  | cons name rest ih =>
    intro acc hmem hall hb ht hj
    have hts_ne_js : apiPath ++ ".ts" ≠ apiPath ++ ".js" := by
      intro he
      rw [he, hj] at ht
      exact absurd ht (by decide)
    unfold HelpersIndex.resolveLoop
    by_cases hbn : HelpersIndex.baseOf name = apiPath
    · rcases hall name (List.mem_cons_self name rest) hbn with hts | hjs
      · subst hts
        rw [if_pos hbn, if_pos ht]
      · subst hjs
        rw [if_pos hbn, if_neg (by rw [hj]; decide)]
        have hmem2 : (apiPath ++ ".ts") ∈ rest := by
          rcases List.mem_cons.mp hmem with h | h
          · exact absurd h hts_ne_js
          · exact h
        have hall2 : ∀ n ∈ rest, HelpersIndex.baseOf n = apiPath →
            n = apiPath ++ ".ts" ∨ n = apiPath ++ ".js" :=
          fun n hn => hall n (List.mem_cons_of_mem _ hn)
        by_cases ha : acc.isNone = true
        · rw [if_pos (by rw [hj]; simpa using ha)]
          exact ih (some (apiDirPath ++ "/" ++ (apiPath ++ ".js"))) hmem2 hall2 hb ht hj
        · rw [if_neg (by rw [hj]; simpa using ha)]
          exact ih acc hmem2 hall2 hb ht hj
    · have hmem2 : (apiPath ++ ".ts") ∈ rest := by
        rcases List.mem_cons.mp hmem with h | h
        · exact absurd (h ▸ hb) hbn
        · exact h
      rw [if_neg hbn]
      exact ih acc hmem2 (fun n hn => hall n (List.mem_cons_of_mem _ hn)) hb ht hj

/-- C8: when both the `.ts` and `.js` variants of a route exist, both API
resolvers return the `.ts` path: the glob-based resolver
(`src/helpers/fs.ts`) checks the `.ts` pattern first, and the
directory-scan resolver (`src/helpers/index.ts`) returns a matching `.ts`
entry immediately while only provisionally recording a `.js` match. -/
theorem apiResolution_prefers_ts
    (files : List String) (root apiPath : String)
    (hts : files.contains (apiPath ++ ".ts") = true)
    (entryNames : List String) (dir : String)
    (hmem : (apiPath ++ ".ts") ∈ entryNames)
    (honly : ∀ name ∈ entryNames, HelpersIndex.baseOf name = apiPath →
      name = apiPath ++ ".ts" ∨ name = apiPath ++ ".js")
    (hb : HelpersIndex.baseOf (apiPath ++ ".ts") = apiPath)
    (hext_ts : HelpersIndex.extnameOf (apiPath ++ ".ts") = ".ts")
    (hext_js : HelpersIndex.extnameOf (apiPath ++ ".js") = ".js") :
    HelpersFs.resolveApiFilePath files root apiPath =
      some (root ++ "/" ++ apiPath ++ ".ts") ∧
    HelpersIndex.resolveApiFilePath entryNames dir apiPath =
      some (dir ++ "/" ++ apiPath ++ ".ts") := by
  constructor
  · unfold HelpersFs.resolveApiFilePath
    rw [if_pos hts]
  · have h := resolveLoop_finds_ts dir apiPath entryNames none hmem honly hb hext_ts hext_js
    unfold HelpersIndex.resolveApiFilePath
    rw [h]
    simp [String.append_assoc]

/-- C8 witness: route `users` with `users.ts` and `users.js` both present (in
scan order `.js` first), plus an unrelated entry; both resolvers return the
`.ts` path. -/
theorem apiResolution_prefers_ts_witness :
    HelpersFs.resolveApiFilePath ["users.js", "users.ts"] "/r" "users" =
      some ("/r" ++ "/" ++ "users" ++ ".ts") ∧
    HelpersIndex.resolveApiFilePath ["readme.md", "users.js", "users.ts"] "/d" "users" =
      some ("/d" ++ "/" ++ "users" ++ ".ts") :=
  apiResolution_prefers_ts ["users.js", "users.ts"] "/r" "users" (by decide)
    ["readme.md", "users.js", "users.ts"] "/d" (by decide) (by decide)
    (by decide) (by decide) (by decide)

/-- Auxiliary: every successful `serveFile` response sets only headers drawn
from Content-Type/Cache-Control/Pragma/Expires; in particular never
`X-Content-Type-Options`. -/
theorem serveFile_no_nosniff (fs : Fs) (host : String) (port : Nat)
    (filePath : String) (resp : Response)
    (h : serveFile fs host port filePath = .ok resp) :
    ((resp.headers.map Prod.fst).contains "X-Content-Type-Options") = false := by
  unfold serveFile at h
  cases hrf : fs.readFile filePath with
  | error e => rw [hrf] at h; cases h
  | ok content =>
    rw [hrf] at h
    simp only at h
    split at h
    · injection h with h
      subst h
      rfl
    · split at h <;> (injection h with h; subst h; rfl)

/-- C6 (amended): no response of `serveStatic` ever sets the
`X-Content-Type-Options` header; the only headers the server sets are
Content-Type and cache-control-related ones. -/
theorem serveStatic_no_nosniff (fs : Fs) (dir host : String) (port : Nat)
    (pathName : String) :
    ((((serveStatic fs dir host port pathName).headers.map Prod.fst).contains
      "X-Content-Type-Options")) = false := by
  unfold serveStatic notFoundResponse catchServeError forbiddenResponse internalErrorResponse
  dsimp only
  repeat' split
  all_goals try rfl
  all_goals (rename_i resp heq; exact serveFile_no_nosniff _ _ _ _ resp heq)

/-- A one-file filesystem: the served root `/root` holding `a.css`. -/
def fsCss : Fs where
  realPath := fun p =>
    if p = "/root" then .ok "/root"
    else if p = "/root/a.css" then .ok "/root/a.css"
    else .error .notFound
  stat := fun p =>
    if p = "/root/a.css" then .ok ⟨false⟩ else .error .notFound
  readFile := fun p =>
    if p = "/root/a.css" then .ok "body" else .error .notFound
  readDir := fun _ => []

/-- C6 counterexample: the response for `GET /a.css` is a 200 file response
that does not carry `X-Content-Type-Options: nosniff` (no response does). -/
theorem serveStatic_nosniff_refuted :
    (serveStatic fsCss "/root" "localhost" 5327 "/a.css").status = 200 ∧
    ¬ (("X-Content-Type-Options", "nosniff") ∈
        (serveStatic fsCss "/root" "localhost" 5327 "/a.css").headers) := by
  decide

/-- C1 (amended): (i) when both canonicalizations succeed and the
canonical-prefix check fails or the resolved path contains a NUL byte,
`serveStatic` answers 403 (the guard condition is sufficient for a 403, not
necessary: a PermissionDenied during stat/read inside the root also yields
403); (ii) a 200 response (in particular any served file) implies both
canonicalizations succeeded and the canonical target has the canonical root
as a prefix; (iii) the literal `..`/NUL rejection is performed by
`serveStaticFile`, which answers 403 for any request path containing a
literal `..` or a NUL byte.  A literal `..` whose canonical target stays
inside the root is NOT rejected by `serveStatic` (see the counterexample). -/
theorem pathGuard_rejection_amended :
    (∀ (fs : Fs) (dir host : String) (port : Nat) (pathName rb rp : String),
      fs.realPath dir = .ok rb →
      fs.realPath (dir ++ decodeURIComponent pathName) = .ok rp →
      (!startsWithStr rp rb
        || containsChar (dir ++ decodeURIComponent pathName) nulChar) = true →
      serveStatic fs dir host port pathName = forbiddenResponse) ∧
    (∀ (fs : Fs) (dir host : String) (port : Nat) (pathName : String),
      (serveStatic fs dir host port pathName).status = 200 →
      ∃ rb rp, fs.realPath dir = .ok rb ∧
        fs.realPath (dir ++ decodeURIComponent pathName) = .ok rp ∧
        startsWithStr rp rb = true) ∧
    (∀ (fs : Fs) (dir host : String) (port : Nat) (fuel : Nat) (pathName : String),
      (sIncludes pathName ".." || containsChar pathName nulChar) = true →
      serveStaticFile fs dir host port (fuel + 1) pathName = forbiddenResponse) := by
  refine ⟨?_, ?_, ?_⟩
  · intro fs dir host port pathName rb rp h1 h2 h3
    unfold serveStatic
    dsimp only
    rw [h1, h2]
    dsimp only
    rw [if_pos h3]
  · intro fs dir host port pathName hstatus
    unfold serveStatic at hstatus
    dsimp only at hstatus
    cases h1 : fs.realPath dir with
    | error e =>
      rw [h1] at hstatus
      cases e <;> simp [notFoundResponse, internalErrorResponse] at hstatus
    | ok rb =>
      rw [h1] at hstatus
      dsimp only at hstatus
      cases h2 : fs.realPath (dir ++ decodeURIComponent pathName) with
      | error e =>
        rw [h2] at hstatus
        cases e <;> simp [notFoundResponse, internalErrorResponse] at hstatus
      | ok rp =>
        rw [h2] at hstatus
        dsimp only at hstatus
        refine ⟨rb, rp, rfl, rfl, ?_⟩
        by_cases hg : (!startsWithStr rp rb
            || containsChar (dir ++ decodeURIComponent pathName) nulChar) = true
        · rw [if_pos hg] at hstatus
          simp [forbiddenResponse] at hstatus
        · have hg2 : (!startsWithStr rp rb
              || containsChar (dir ++ decodeURIComponent pathName) nulChar) = false := by
            simpa using hg
          have hsplit := Bool.or_eq_false_iff.mp hg2
          simpa using hsplit.1
  · intro fs dir host port fuel pathName h
    unfold serveStaticFile
    rw [if_pos h]

/-- A filesystem giving the guard a canonical target outside the root
(for `/%2e%2e/x`) and a normal file `a.css` inside it. -/
def fsGuard : Fs where
  realPath := fun p =>
    if p = "/root" then .ok "/root"
    else if p = "/root/../x" then .ok "/x"
    else if p = "/root/a.css" then .ok "/root/a.css"
    else .error .notFound
  stat := fun p =>
    if p = "/root/a.css" then .ok ⟨false⟩ else .error .notFound
  readFile := fun p =>
    if p = "/root/a.css" then .ok "b" else .error .notFound
  readDir := fun _ => []

/-- C1 witness: the three parts of the amended theorem at concrete inputs: the
percent-encoded escape `/％2e％2e/x`-style request is 403, the served
`/a.css` is 200 with canonical containment, and `serveStaticFile` rejects a
literal `..` path. -/
theorem pathGuard_rejection_amended_witness :
    fsGuard.realPath "/root" = .ok "/root" ∧
    fsGuard.realPath ("/root" ++ decodeURIComponent "/%2e%2e/x") = .ok "/x" ∧
    (!startsWithStr "/x" "/root"
      || containsChar ("/root" ++ decodeURIComponent "/%2e%2e/x") nulChar) = true ∧
    serveStatic fsGuard "/root" "localhost" 5327 "/%2e%2e/x" = forbiddenResponse ∧
    (serveStatic fsGuard "/root" "localhost" 5327 "/a.css").status = 200 ∧
    (∃ rb rp, fsGuard.realPath "/root" = .ok rb ∧
      fsGuard.realPath ("/root" ++ decodeURIComponent "/a.css") = .ok rp ∧
      startsWithStr rp rb = true) ∧
    (sIncludes "/../x" ".." || containsChar "/../x" nulChar) = true ∧
    serveStaticFile fsGuard "/root" "localhost" 5327 1 "/../x" = forbiddenResponse :=
  ⟨by decide, by decide, by decide,
    pathGuard_rejection_amended.1 fsGuard "/root" "localhost" 5327 "/%2e%2e/x"
      "/root" "/x" (by decide) (by decide) (by decide),
    by decide,
    pathGuard_rejection_amended.2.1 fsGuard "/root" "localhost" 5327 "/a.css" (by decide),
    by decide,
    pathGuard_rejection_amended.2.2 fsGuard "/root" "localhost" 5327 0 "/../x" (by decide)⟩

/-- A filesystem where `/sub/../a.css` canonicalizes back inside the root. -/
def fsDotDot : Fs where
  realPath := fun p =>
    if p = "/root" then .ok "/root"
    else if p = "/root/sub/../a.css" then .ok "/root/a.css"
    else .error .notFound
  stat := fun p =>
    if p = "/root/sub/../a.css" then .ok ⟨false⟩ else .error .notFound
  readFile := fun p =>
    if p = "/root/sub/../a.css" then .ok "css-bytes" else .error .notFound
  readDir := fun _ => []

/-- C1 counterexample: a decoded request path with a literal `..` segment
(`/sub/%2e%2e/a.css`) whose canonical target stays inside the root is served
with 200 by `serveStatic`, not answered with 403 as the claim states. -/
theorem serveStatic_dotdot_not_rejected :
    sIncludes (decodeURIComponent "/sub/%2e%2e/a.css") ".." = true ∧
    (serveStatic fsDotDot "/root" "localhost" 5327 "/sub/%2e%2e/a.css").status = 200 ∧
    serveStatic fsDotDot "/root" "localhost" 5327 "/sub/%2e%2e/a.css" ≠
      forbiddenResponse := by
  decide

/-- A filesystem in which the directory `/root/d` passes the guard but its
`index.html` is a symlink whose canonical target `/etc/secret` lies outside
the served root; reading it follows the symlink. -/
def fsSymlink : Fs where
  realPath := fun p =>
    if p = "/root" then .ok "/root"
    else if p = "/root/d" then .ok "/root/d"
    else if p = "/root/d/index.html" then .ok "/etc/secret"
    else .error .notFound
  stat := fun p =>
    if p = "/root/d" then .ok ⟨true⟩
    else if p = "/root/d/index.html" then .ok ⟨false⟩
    else .error .notFound
  readFile := fun p =>
    if p = "/root/d/index.html" then .ok "TOPSECRET" else .error .notFound
  readDir := fun _ => []

/-- C3: `serveStatic` derives the implicit `index.html` path inside a
directory and hands it straight to `serveFile` (a raw read) with NO second
canonicalization/prefix check, so a symlinked `index.html` whose canonical
target is outside the root is served: the request for `/d` returns 200 with
the bytes of `/etc/secret`, although the derived path canonicalizes outside
the root.  This contradicts the spec's stated requirement to re-run the check
for every derived path. -/
theorem serveStatic_index_no_recheck :
    (serveStatic fsSymlink "/root" "localhost" 5327 "/d").status = 200 ∧
    (serveStatic fsSymlink "/root" "localhost" 5327 "/d").body = "TOPSECRET" ∧
    fsSymlink.realPath "/root/d/index.html" = .ok "/etc/secret" ∧
    startsWithStr "/etc/secret" "/root" = false := by
  decide

/-- A filesystem with a single HTML file containing a closing body tag. -/
def fsHtml : Fs where
  realPath := fun p =>
    if p = "/root" then .ok "/root"
    else if p = "/root/index.html" then .ok "/root/index.html"
    else .error .notFound
  stat := fun p =>
    if p = "/root/index.html" then .ok ⟨false⟩ else .error .notFound
  readFile := fun p =>
    if p = "/root/index.html" then .ok "<html><body>hi</body></html>"
    else .error .notFound
  readDir := fun _ => []

/-- C9: the injection branch is dead code in both server variants, so an HTML
file is served byte-for-byte unmodified with no script tag at all:
`serveStaticFile` compares its own table value `text/html; charset=utf-8`
against the literal `text/html`, and `serveFile` compares the external
lookup's value (pinned to `text/html; charset=UTF-8` by the repository's own
tests) against the lowercase literal `text/html; charset=utf-8`; neither
equality ever holds. -/
theorem html_injection_never_happens :
    getMimeTypeV2 "/root/index.html" = "text/html; charset=utf-8" ∧
    getMimeTypeV2 "/root/index.html" ≠ "text/html" ∧
    (serveStaticFile fsHtml "/root" "localhost" 5327 1 "/index.html").body =
      "<html><body>hi</body></html>" ∧
    contentTypeStd "html" = some "text/html; charset=UTF-8" ∧
    (serveStatic fsHtml "/root" "localhost" 5327 "/index.html").body =
      "<html><body>hi</body></html>" ∧
    sIncludes (serveStatic fsHtml "/root" "localhost" 5327 "/index.html").body
      "<script" = false := by
  decide

/-- Auxiliary: strict lexicographic order is irreflexive. -/
theorem lexLtB_irrefl : ∀ l : List Nat, lexLtB l l = false
  | [] => rfl
  | a :: as => by
    simp only [lexLtB, Nat.lt_irrefl, if_false]
    exact lexLtB_irrefl as

/-- Auxiliary: strict lexicographic order is asymmetric. -/
theorem lexLtB_asymm : ∀ a b : List Nat, lexLtB a b = true → lexLtB b a = false := by
  intro a
  induction a with
  | nil =>
    intro b h
    cases b with
    | nil => simp [lexLtB] at h
    | cons y ys => simp [lexLtB]
  | cons x xs ih =>
    intro b h
    cases b with
    | nil => simp [lexLtB] at h
    | cons y ys =>
      simp only [lexLtB] at h ⊢
      rcases Nat.lt_trichotomy x y with hxy | hxy | hxy
      · rw [if_neg (Nat.lt_asymm hxy), if_pos hxy]
      · subst hxy
        rw [if_neg (Nat.lt_irrefl x), if_neg (Nat.lt_irrefl x)] at h ⊢
        exact ih ys h
      · rw [if_neg (Nat.lt_asymm hxy), if_pos hxy] at h
        exact absurd h (by decide)

/-- Auxiliary: strict lexicographic order is transitive. -/
theorem lexLtB_trans : ∀ a b c : List Nat,
    lexLtB a b = true → lexLtB b c = true → lexLtB a c = true := by
  intro a
  induction a with
  | nil =>
    intro b c hab hbc
    cases b with
    | nil => simp [lexLtB] at hab
    | cons y ys =>
      cases c with
      | nil => simp [lexLtB] at hbc
      | cons z zs => simp [lexLtB]
  | cons x xs ih =>
    intro b c hab hbc
    cases b with
    | nil => simp [lexLtB] at hab
    | cons y ys =>
      cases c with
      | nil => simp [lexLtB] at hbc
      | cons z zs =>
        simp only [lexLtB] at hab hbc ⊢
        rcases Nat.lt_trichotomy x y with hxy | hxy | hxy
        · rcases Nat.lt_trichotomy y z with hyz | hyz | hyz
          · rw [if_pos (Nat.lt_trans hxy hyz)]
          · subst hyz
            rw [if_pos hxy]
          · rw [if_neg (Nat.lt_asymm hyz), if_pos hyz] at hbc
            exact absurd hbc (by decide)
        · subst hxy
          rcases Nat.lt_trichotomy x z with hxz | hxz | hxz
          · rw [if_pos hxz]
          · subst hxz
            rw [if_neg (Nat.lt_irrefl x), if_neg (Nat.lt_irrefl x)] at hab hbc ⊢
            exact ih ys zs hab hbc
          · rw [if_neg (Nat.lt_asymm hxz), if_pos hxz] at hbc
            exact absurd hbc (by decide)
        · rw [if_neg (Nat.lt_asymm hxy), if_pos hxy] at hab
          exact absurd hab (by decide)

/-- Auxiliary: two lists neither of which is lexicographically below the other
are equal. -/
theorem lexLtB_eq_of_not : ∀ a b : List Nat,
    lexLtB a b = false → lexLtB b a = false → a = b := by
  intro a
  induction a with
  | nil =>
    intro b hab _
    cases b with
    | nil => rfl
    | cons y ys => simp [lexLtB] at hab
  | cons x xs ih =>
    intro b hab hba
    cases b with
    | nil => simp [lexLtB] at hba
    | cons y ys =>
      simp only [lexLtB] at hab hba
      rcases Nat.lt_trichotomy x y with hxy | hxy | hxy
      · rw [if_pos hxy] at hab
        exact absurd hab (by decide)
      · subst hxy
        rw [if_neg (Nat.lt_irrefl x), if_neg (Nat.lt_irrefl x)] at hab hba
        rw [ih ys hab hba]
      · rw [if_pos hxy] at hba
        exact absurd hba (by decide)

/-- The non-strict order induced by the modelled `localeCompare`: primary
(case-insensitive) key strictly below, or primary keys equal and the case
tiebreak not strictly above. -/
def localeLeP (a b : String) : Prop :=
  lexLtB (keyLower a) (keyLower b) = true ∨
    (keyLower a = keyLower b ∧ lexLtB (keyCase b) (keyCase a) = false)

/-- Auxiliary: `localeCompare a b ≤ 0` is exactly `localeLeP a b`. -/
theorem localeCompare_nonpos_iff (a b : String) :
    localeCompare a b ≤ 0 ↔ localeLeP a b := by
  unfold localeCompare localeLeP
  by_cases h1 : lexLtB (keyLower a) (keyLower b) = true
  · rw [if_pos h1]
    simp [h1]
  · rw [if_neg h1]
    by_cases h2 : lexLtB (keyLower b) (keyLower a) = true
    · rw [if_pos h2]
      constructor
      · intro hc
        exact absurd hc (by decide)
      · rintro (hl | ⟨he, _⟩)
        · exact absurd hl h1
        · rw [he] at h2
          rw [lexLtB_irrefl] at h2
          cases h2
    · rw [if_neg h2]
      have h1f : lexLtB (keyLower a) (keyLower b) = false := by simpa using h1
      have h2f : lexLtB (keyLower b) (keyLower a) = false := by simpa using h2
      have heq : keyLower a = keyLower b := lexLtB_eq_of_not _ _ h1f h2f
      by_cases h3 : lexLtB (keyCase a) (keyCase b) = true
      · rw [if_pos h3]
        exact ⟨fun _ => Or.inr ⟨heq, lexLtB_asymm _ _ h3⟩, fun _ => by decide⟩
      · rw [if_neg h3]
        by_cases h4 : lexLtB (keyCase b) (keyCase a) = true
        · rw [if_pos h4]
          constructor
          · intro hc
            exact absurd hc (by decide)
          · rintro (hl | ⟨_, hf⟩)
            · exact absurd hl h1
            · rw [hf] at h4
              cases h4
        · rw [if_neg h4]
          exact ⟨fun _ => Or.inr ⟨heq, by simpa using h4⟩, fun _ => by decide⟩

/-- Auxiliary: the modelled collation order is total. -/
theorem localeLeP_total (a b : String) : localeLeP a b ∨ localeLeP b a := by
  by_cases h1 : lexLtB (keyLower a) (keyLower b) = true
  · exact Or.inl (Or.inl h1)
  by_cases h2 : lexLtB (keyLower b) (keyLower a) = true
  · exact Or.inr (Or.inl h2)
  have heq : keyLower a = keyLower b :=
    lexLtB_eq_of_not _ _ (by simpa using h1) (by simpa using h2)
  by_cases h3 : lexLtB (keyCase b) (keyCase a) = true
  · exact Or.inr (Or.inr ⟨heq.symm, lexLtB_asymm _ _ h3⟩)
  · exact Or.inl (Or.inr ⟨heq, by simpa using h3⟩)

/-- Auxiliary: the modelled collation order is transitive. -/
theorem localeLeP_trans (a b c : String) :
    localeLeP a b → localeLeP b c → localeLeP a c := by
  rintro (h1 | ⟨e1, c1⟩) (h2 | ⟨e2, c2⟩)
  · exact Or.inl (lexLtB_trans _ _ _ h1 h2)
  · exact Or.inl (by rw [← e2]; exact h1)
  · exact Or.inl (by rw [e1]; exact h2)
  · refine Or.inr ⟨e1.trans e2, ?_⟩
    by_cases hc : lexLtB (keyCase c) (keyCase a) = true
    · exfalso
      by_cases d1 : lexLtB (keyCase a) (keyCase b) = true
      · by_cases d2 : lexLtB (keyCase b) (keyCase c) = true
        · have hac := lexLtB_trans _ _ _ d1 d2
          rw [lexLtB_asymm _ _ hac] at hc
          cases hc
        · have ebc : keyCase b = keyCase c :=
            lexLtB_eq_of_not _ _ (by simpa using d2) c2
          rw [← ebc] at hc
          rw [lexLtB_asymm _ _ d1] at hc
          cases hc
      · have eab : keyCase a = keyCase b :=
          lexLtB_eq_of_not _ _ (by simpa using d1) c1
        rw [← eab] at c2
        rw [c2] at hc
        cases hc
    · simpa using hc

/-- Auxiliary: characterization of the comparator order: a directory is below
a file, and entries of the same kind compare by the modelled collation. -/
theorem entryLe_iff (a b : DirEntry) :
    entryLe a b ↔ ((a.isDirectory = true ∧ b.isDirectory = false) ∨
      (a.isDirectory = b.isDirectory ∧ localeLeP a.name b.name)) := by
  unfold entryLe entryCompare
  cases ha : a.isDirectory <;> cases hb : b.isDirectory
  · simpa using localeCompare_nonpos_iff a.name b.name
  · simp only [Bool.not_true, Bool.and_false, Bool.false_and, if_false,
      Bool.not_false, Bool.and_true, Bool.true_and, if_true]
    constructor
    · intro hc
      exact absurd hc (by decide)
    · rintro (⟨h, _⟩ | ⟨h, _⟩) <;> cases h
  · simp only [Bool.not_false, Bool.and_true, Bool.true_and, if_true]
    exact ⟨fun _ => Or.inl ⟨by simp, by simp⟩, fun _ => by decide⟩
  · simp only [Bool.not_true, Bool.and_false, Bool.false_and, if_false]
    simpa using localeCompare_nonpos_iff a.name b.name

instance : IsTotal DirEntry entryLe := by
  constructor
  intro a b
  cases ha : a.isDirectory <;> cases hb : b.isDirectory
  · rcases localeLeP_total a.name b.name with h | h
    · exact Or.inl ((entryLe_iff a b).mpr (Or.inr ⟨by rw [ha, hb], h⟩))
    · exact Or.inr ((entryLe_iff b a).mpr (Or.inr ⟨by rw [ha, hb], h⟩))
  · exact Or.inr ((entryLe_iff b a).mpr (Or.inl ⟨hb, ha⟩))
  · exact Or.inl ((entryLe_iff a b).mpr (Or.inl ⟨ha, hb⟩))
  · rcases localeLeP_total a.name b.name with h | h
    · exact Or.inl ((entryLe_iff a b).mpr (Or.inr ⟨by rw [ha, hb], h⟩))
    · exact Or.inr ((entryLe_iff b a).mpr (Or.inr ⟨by rw [ha, hb], h⟩))

instance : IsTrans DirEntry entryLe := by
  constructor
  intro a b c hab hbc
  rcases (entryLe_iff a b).mp hab with ⟨ha, hb⟩ | ⟨e1, l1⟩ <;>
    rcases (entryLe_iff b c).mp hbc with ⟨hb2, hc⟩ | ⟨e2, l2⟩
  · rw [hb] at hb2
    cases hb2
  · exact (entryLe_iff a c).mpr (Or.inl ⟨ha, e2 ▸ hb⟩)
  · exact (entryLe_iff a c).mpr (Or.inl ⟨e1.trans hb2, hc⟩)
  · exact (entryLe_iff a c).mpr (Or.inr ⟨e1.trans e2, localeLeP_trans _ _ _ l1 l2⟩)

/-- C7 (amended): the sorted listing is a permutation of the directory
entries in which no file precedes a directory, entries of the same kind are
in the modelled `localeCompare` collation order (NOT ordinal order), and the
parent link is present exactly when the request path string differs from
`/`. -/
theorem directoryListing_order (pathName : String) (entries : List DirEntry) :
    (sortEntries entries).Perm entries ∧
    List.Pairwise (fun a b => (b.isDirectory = true → a.isDirectory = true) ∧
      (a.isDirectory = b.isDirectory → localeLeP a.name b.name))
      (sortEntries entries) ∧
    parentLinkHtml pathName =
      (if pathName = "/" then "" else "<li><a href=\"..\">../</a></li>") := by
  refine ⟨List.perm_insertionSort entryLe entries, ?_, ?_⟩
  · have hs : List.Pairwise entryLe (List.insertionSort entryLe entries) :=
      List.sorted_insertionSort entryLe entries
    unfold sortEntries
    refine List.Pairwise.imp ?_ hs
    intro a b hab
    rcases (entryLe_iff a b).mp hab with ⟨ha, hb⟩ | ⟨e, l⟩
    · exact ⟨fun _ => ha, fun he => by rw [ha, hb] at he; cases he⟩
    · exact ⟨fun hbd => e.trans hbd, fun _ => l⟩
  · unfold parentLinkHtml
    by_cases hp : pathName = "/" <;> simp [hp]

/-- C7 witness: the amended theorem applied to a concrete listing of `b.txt`,
`a.txt` and subdirectory `z` under request path `/docs/`. -/
theorem directoryListing_order_witness :
    (sortEntries [⟨"b.txt", false⟩, ⟨"z", true⟩, ⟨"a.txt", false⟩]).Perm
      [⟨"b.txt", false⟩, ⟨"z", true⟩, ⟨"a.txt", false⟩] ∧
    List.Pairwise (fun a b => (b.isDirectory = true → a.isDirectory = true) ∧
      (a.isDirectory = b.isDirectory → localeLeP a.name b.name))
      (sortEntries [⟨"b.txt", false⟩, ⟨"z", true⟩, ⟨"a.txt", false⟩]) ∧
    parentLinkHtml "/docs/" =
      (if "/docs/" = "/" then "" else "<li><a href=\"..\">../</a></li>") :=
  directoryListing_order "/docs/" [⟨"b.txt", false⟩, ⟨"z", true⟩, ⟨"a.txt", false⟩]

/-- A filesystem whose root is also reachable as `/root//` (realPath strips
the duplicate slash), with two files inside and no index.html. -/
def fsSlashRoot : Fs where
  realPath := fun p =>
    if p = "/root" then .ok "/root"
    else if p = "/root//" then .ok "/root"
    else .error .notFound
  stat := fun p =>
    if p = "/root//" then .ok ⟨true⟩ else .error .notFound
  readFile := fun _ => .error .notFound
  readDir := fun p =>
    if p = "/root//" then [⟨"B.txt", false⟩, ⟨"a.txt", false⟩] else []

/-- C7 counterexample: (order) the comparator sorts `a.txt` before `B.txt`
whereas case-sensitive ordinal order puts `B.txt` (code 66) strictly before
`a.txt` (code 97); (parent link) the request `//` lists the served root
itself (its canonical path equals the canonical root) yet the 200 listing
contains a parent-link entry, because the template tests the path string
against `/`. -/
theorem directoryListing_claim_refuted :
    sortEntries [⟨"B.txt", false⟩, ⟨"a.txt", false⟩] =
      [⟨"a.txt", false⟩, ⟨"B.txt", false⟩] ∧
    lexLtB (("B.txt" : String).data.map Char.toNat)
      (("a.txt" : String).data.map Char.toNat) = true ∧
    (serveStatic fsSlashRoot "/root" "localhost" 5327 "//").status = 200 ∧
    sIncludes (serveStatic fsSlashRoot "/root" "localhost" 5327 "//").body
      "<li><a href=\"..\">../</a></li>" = true ∧
    fsSlashRoot.realPath ("/root" ++ decodeURIComponent "//") =
      fsSlashRoot.realPath "/root" := by
  decide
